import Mathlib

/-!
Verification of the `pip cache` command (`src/pip/commands/cache.py`).

The development shallowly embeds the four actions of the command (`info`, `list`,
`rm`, `purge`) over an explicit filesystem state.  Code of the repository that
lives outside `src/` (the helpers `find_files`, `tree_statistics`, `rmtree`,
`format_size`, the status codes and the CLI base layer) is modelled from the
specification, as is the `fnmatch` glob matching of Python; each such definition
carries a doc comment saying so.  Everything under `src/pip/commands/cache.py`
is translated directly.
-/

namespace PipCache

/-! ## Shell-glob matching (Python `fnmatch`)

Modelled from the spec: shell-glob semantics with `*`, `?` and `[...]`
character classes, matched against a whole name (`fnmatch.translate` anchors
the pattern at both ends).  An unterminated `[` is a literal character; a
class may be negated with a leading `!`; a `]` right after `[` or `[!` is a
literal member; `a-b` inside a class is a character range. -/

/-- One member of a `[...]` character class: a single character or a range. -/
inductive ClsItem where
  | single : Char → ClsItem
  | range : Char → Char → ClsItem
deriving DecidableEq, Repr

/-- One token of a compiled glob pattern. -/
inductive GlobTok where
  | star : GlobTok
  | qmark : GlobTok
  | lit : Char → GlobTok
  | cls : Bool → List ClsItem → GlobTok
deriving DecidableEq, Repr

/-- Parse the raw contents of a `[...]` class into members, reading `a-b`
as a range and anything else as a single character. -/
def parseClsItems : List Char → List ClsItem
  | a :: '-' :: b :: rest => ClsItem.range a b :: parseClsItems rest
  | a :: rest => ClsItem.single a :: parseClsItems rest
  | [] => []

/-- Fuelled glob-pattern scanner; `fuel` bounds the number of tokens
produced, and an initial fuel equal to the length of the pattern always suffices
because every step consumes at least one character. -/
def parseGlobFuel : Nat → List Char → List GlobTok
  | 0, _ => []
  | _ + 1, [] => []
  | fuel + 1, c :: rest =>
    if c = '*' then GlobTok.star :: parseGlobFuel fuel rest
    else if c = '?' then GlobTok.qmark :: parseGlobFuel fuel rest
    else if c = '[' then
      let negr := match rest with
        | '!' :: t => (true, t)
        | _ => (false, rest)
      let leadr : List Char × List Char := match negr.2 with
        | ']' :: t => ([']'], t)
        | _ => ([], negr.2)
      let stuff := leadr.2.takeWhile (fun d => !(d = ']'))
      let after := leadr.2.dropWhile (fun d => !(d = ']'))
      match after with
      | ']' :: rest2 =>
        GlobTok.cls negr.1 (parseClsItems (leadr.1 ++ stuff)) :: parseGlobFuel fuel rest2
      | _ => GlobTok.lit '[' :: parseGlobFuel fuel rest
    else GlobTok.lit c :: parseGlobFuel fuel rest

/-- Compile a glob pattern into tokens. -/
def parseGlob (pat : List Char) : List GlobTok := parseGlobFuel pat.length pat

/-- Whether a character is matched by one class member. -/
def clsItemMatch (c : Char) : ClsItem → Bool
  | ClsItem.single a => c = a
  | ClsItem.range a b => a ≤ c && c ≤ b

/-- Whether a character is matched by a class body. -/
def clsMatch (items : List ClsItem) (c : Char) : Bool := items.any (clsItemMatch c)

/-- Match a compiled glob pattern against a name, anchored at both ends;
`star` consumes an arbitrary prefix (the `.*` of `fnmatch.translate`),
expressed as: some suffix of the name matches the rest of the pattern. -/
def matchToks : List GlobTok → List Char → Bool
  | [], s => s.isEmpty
  | GlobTok.star :: ps, s => s.tails.any (fun t => matchToks ps t)
  | GlobTok.qmark :: ps, s =>
    match s with
    | [] => false
    | _ :: cs => matchToks ps cs
  | GlobTok.lit a :: ps, s =>
    match s with
    | [] => false
    | c :: cs => a = c && matchToks ps cs
  | GlobTok.cls neg items :: ps, s =>
    match s with
    | [] => false
    | c :: cs => (clsMatch items c != neg) && matchToks ps cs

/-- Python `fnmatch.fnmatch name pat` (POSIX case: no case folding). -/
def fnmatchOne (name pat : String) : Bool := matchToks (parseGlob pat.data) name.data

/-- Python `fnmatch.filter names pat`: keep the names matching the pattern. -/
def fnmatchFilter (names : List String) (pat : String) : List String :=
  names.filter (fun n => fnmatchOne n pat)

/-! ## Paths and the filesystem state -/

/-- The `os.path.join` for the joins the command performs (a relative, non-empty
second component). -/
def os_path_join (a b : String) : String := a ++ "/" ++ b

/-- The `os.path.basename` of a path: everything after the last `/`. -/
def basename (p : String) : String := String.mk ((p.data.splitOn '/').getLastD [])

/-- Whether path `f` lies strictly below directory `loc`. -/
def isUnder (loc f : String) : Bool := (loc.data ++ ['/']).isPrefixOf f.data

/-- The filesystem state the command operates on: the regular files (absolute
paths) with their sizes, the directories, the symbolic links, and two oracles
naming the paths on which `os.unlink` respectively `rmtree` raise `OSError`. -/
structure FileSystem where
  files : List String
  dirs : List String
  links : List String
  fileSize : String → Nat
  failUnlink : List String
  failRmtree : List String

/-- The effect of `os.unlink`: remove one regular file. -/
def FileSystem.unlink (fs : FileSystem) (p : String) : FileSystem :=
  { fs with files := fs.files.filter (fun f => !(f = p)) }

/-- Modelled from the spec: `rmtree` from `pip.utils` recursively removes the
whole directory tree rooted at `loc` (on the failure oracle it raises instead,
which the caller handles; the state on a raise is modelled as unchanged). -/
def FileSystem.rmtree (fs : FileSystem) (loc : String) : FileSystem :=
  { fs with
    files := fs.files.filter (fun f => !(isUnder loc f)),
    dirs := fs.dirs.filter (fun d => !(isUnder loc d) && !(d = loc)),
    links := fs.links.filter (fun l => !(isUnder loc l)) }

/-- Modelled from the spec: `find_files` from `pip.utils.filesystem` walks the
tree rooted at `path` and returns, in a stable deterministic order, the paths
of the regular files whose basename matches the glob `pattern`; a missing
`path` yields the empty sequence. -/
def find_files (fs : FileSystem) (path pattern : String) : List String :=
  fs.files.filter (fun f => isUnder path f && fnmatchOne (basename f) pattern)

/-- Modelled from the spec: `tree_statistics` from `pip.utils.filesystem`
returns the number of regular files beneath `path` and their total byte size;
a missing `path` yields `(0, 0)` and the walk never raises. -/
def tree_statistics (fs : FileSystem) (path : String) : Nat × Nat :=
  let under := fs.files.filter (fun f => isUnder path f)
  (under.length, (under.map fs.fileSize).sum)

/-! ## Status codes, log messages, options and errors -/

/-- Status `pip.status_codes.SUCCESS` (modelled from the spec: the success result). -/
def SUCCESS : Nat := 0

/-- Status `pip.status_codes.ERROR` (modelled from the spec: the failure result,
a non-zero termination signal). -/
def ERROR : Nat := 1

/-- A line sent to the logger, tagged with its level. -/
inductive LogMsg where
  | info : String → LogMsg
  | warning : String → LogMsg
deriving DecidableEq, Repr

/-- Exception `pip.exceptions.CommandError` (modelled from the spec: a usage error
surfaced to the CLI layer). -/
structure CommandError where
  msg : String
deriving DecidableEq, Repr

/-- The two options the command reads: `--type` and the cache root. -/
structure Options where
  type : String
  cache_dir : String

/-! ## The `cache` command (`src/pip/commands/cache.py`) -/

/-- The list `CacheCommand.actions`. -/
def actions : List String := ["info", "list", "rm", "purge"]

/-- The `suffix` dictionary of `CacheCommand.get_cache_location`. -/
def suffixTable : List (String × String) := [("wheel", "wheels"), ("http", "http")]

/-- Method `CacheCommand.get_cache_location`: the cache root itself for `all`,
otherwise the root joined with the fixed subdirectory name. -/
def get_cache_location (cache_root cache_type : String) : String :=
  if cache_type = "all" then cache_root
  else os_path_join cache_root ((suffixTable.lookup cache_type).getD "")

/-- The `name` dictionary of `CacheCommand.action_info`. -/
def nameTable : List (String × String) :=
  [("wheel", "Wheel cache"), ("http", "HTTP cache")]

/-- One block of the report of `action_info`, before rendering. -/
structure InfoBlock where
  name : String
  location : String
  files : Nat
  size : Nat
deriving DecidableEq, Repr

/-- Modelled from the spec: `format_size` from `pip.utils` renders a byte
count for humans; the formatting itself is a presentation concern outside the
core contract, so the rendering is the raw integer. -/
def format_size (n : Nat) : String := toString n

/-- The info block `action_info` builds for one cache type. -/
def info_block (fs : FileSystem) (cache_dir cache_type : String) : InfoBlock :=
  let location := get_cache_location cache_dir cache_type
  let stats := tree_statistics fs location
  { name := (nameTable.lookup cache_type).getD ""
    location := location
    files := stats.1
    size := stats.2 }

/-- The `result` list built by the loop in `action_info`, one block per type. -/
def info_blocks (fs : FileSystem) (cache_dir : String) (caches : List String) :
    List InfoBlock :=
  caches.map (info_block fs cache_dir)

/-- Render one info block as `action_info` formats it. -/
def render_block (b : InfoBlock) : String :=
  b.name ++ " info:\n   Location: " ++ b.location ++ "\n   Files: " ++
    toString b.files ++ "\n   Size: " ++ format_size b.size

/-- Method `CacheCommand.action_info`: build one block per resolved cache type, log
them joined by blank lines, and return `SUCCESS`.  The first component is the
Python return value (`some` an exit status, `none` for the Python `None`). -/
def action_info (options : Options) (args : List String) (fs : FileSystem) :
    Option Nat × FileSystem × List LogMsg :=
  let caches := if options.type = "all" then ["http", "wheel"] else [options.type]
  let result := info_blocks fs options.cache_dir caches
  (some SUCCESS, fs, [LogMsg.info (String.intercalate "\n\n" (result.map render_block))])

/-- The sorted wheel basenames `action_list` prints. -/
def list_wheels (fs : FileSystem) (cache_dir : String) : List String :=
  let cache_location := get_cache_location cache_dir "wheel"
  (((find_files fs cache_location "*.whl").map basename).mergeSort
    (fun a b => a ≤ b))

/-- Method `CacheCommand.action_list`: wheel cache only; log the sorted basenames of
the `*.whl` files, one per line; the Python method returns `None`. -/
def action_list (options : Options) (args : List String) (fs : FileSystem) :
    Except CommandError (Option Nat × FileSystem × List LogMsg) :=
  if !(options.type = "wheel") then
    Except.error ⟨"pip cache list only operates on the wheel cache."⟩
  else
    let wheels := list_wheels fs options.cache_dir
    Except.ok (none, fs, [LogMsg.info (String.intercalate "\n" wheels)])

/-- The inner `for match in matches` loop of `action_rm`: unlink each match,
logging the outcome and downgrading `value` on an `OSError`. -/
def unlink_loop : FileSystem → List String → Nat → FileSystem × List LogMsg × Nat
  | fs, [], value => (fs, [], value)
  | fs, m :: rest, value =>
    if m ∈ fs.failUnlink then
      let next := unlink_loop fs rest ERROR
      (next.1, LogMsg.warning ("Could not remove " ++ m) :: next.2.1, next.2.2)
    else
      let next := unlink_loop (fs.unlink m) rest value
      (next.1, LogMsg.info ("Removed " ++ m) :: next.2.1, next.2.2)

/-- The outer `for target in args` loop of `action_rm`: glob by the raw
target, re-filter by `*.whl`, warn on an empty match set, else unlink the
matches; the running `value` is the aggregate result. -/
def rm_loop (cache_location : String) :
    FileSystem → List String → Nat → Nat × FileSystem × List LogMsg
  | fs, [], value => (value, fs, [])
  | fs, target :: rest, value =>
    let ms := fnmatchFilter (find_files fs cache_location target) "*.whl"
    if ms = [] then
      let next := rm_loop cache_location fs rest ERROR
      (next.1, next.2.1, LogMsg.warning ("No match found for " ++ target) :: next.2.2)
    else
      let step := unlink_loop fs ms value
      let next := rm_loop cache_location step.1 rest step.2.2
      (next.1, next.2.1, step.2.1 ++ next.2.2)

/-- Method `CacheCommand.action_rm`: wheel cache only, at least one target required;
then run the removal loop starting from `SUCCESS`. -/
def action_rm (options : Options) (args : List String) (fs : FileSystem) :
    Except CommandError (Option Nat × FileSystem × List LogMsg) :=
  if !(options.type = "wheel") then
    Except.error ⟨"pip cache rm only operates on the wheel cache."⟩
  else if args.length = 0 then
    Except.error ⟨"Must specify the filename of (a) wheel(s) to remove."⟩
  else
    let cache_location := get_cache_location options.cache_dir "wheel"
    let r := rm_loop cache_location fs args SUCCESS
    Except.ok (some r.1, r.2.1, r.2.2)

/-- One iteration of the loop in `action_purge` on a resolved location: skip (with
an informational note) a symlink or a non-directory, otherwise remove the
tree, downgrading to `ERROR` if `rmtree` raises. -/
def purge_step (fs : FileSystem) (cache_location : String) :
    Nat × FileSystem × List LogMsg :=
  if cache_location ∈ fs.links ∨ cache_location ∉ fs.dirs then
    (SUCCESS, fs, [LogMsg.info (cache_location ++ " is not a directory; skipping")])
  else if cache_location ∈ fs.failRmtree then
    (ERROR, fs, [LogMsg.warning ("Could not remove " ++ cache_location)])
  else
    (SUCCESS, fs.rmtree cache_location, [LogMsg.info ("Removed " ++ cache_location)])

/-- The `for cache_type in caches` loop of `action_purge`. -/
def purge_loop (cache_dir : String) :
    FileSystem → List String → Nat → Nat × FileSystem × List LogMsg
  | fs, [], value => (value, fs, [])
  | fs, cache_type :: rest, value =>
    let loc := get_cache_location cache_dir cache_type
    let step := purge_step fs loc
    let value2 := if step.1 = ERROR then ERROR else value
    let next := purge_loop cache_dir step.2.1 rest value2
    (next.1, next.2.1, step.2.2 ++ next.2.2)

/-- Method `CacheCommand.action_purge`: resolve the types (`all` expands to `http`
then `wheel`) and run the purge loop starting from `SUCCESS`. -/
def action_purge (options : Options) (args : List String) (fs : FileSystem) :
    Nat × FileSystem × List LogMsg :=
  let caches := if options.type = "all" then ["http", "wheel"] else [options.type]
  purge_loop options.cache_dir fs caches SUCCESS

/-- Method `CacheCommand.run`: reject a missing or unknown first argument, else
dispatch to the action with the remaining arguments. -/
def run (options : Options) (args : List String) (fs : FileSystem) :
    Except CommandError (Option Nat × FileSystem × List LogMsg) :=
  match args with
  | [] =>
    Except.error ⟨"Please provide one of these subcommands: info, list, rm, purge"⟩
  | a :: rest =>
    if a ∈ actions then
      if a = "info" then Except.ok (action_info options rest fs)
      else if a = "list" then action_list options rest fs
      else if a = "rm" then action_rm options rest fs
      else
        let r := action_purge options rest fs
        Except.ok (some r.1, r.2.1, r.2.2)
    else
      Except.error ⟨"Please provide one of these subcommands: info, list, rm, purge"⟩

/-- Modelled from the spec: the external CLI layer around `run` turns a
raised `CommandError` into the failure status before touching anything, an
integer return value into that status, and a `None` return into `SUCCESS`. -/
def cache_main (options : Options) (args : List String) (fs : FileSystem) :
    Nat × FileSystem × List LogMsg :=
  match run options args fs with
  | Except.error _ => (ERROR, fs, [])
  | Except.ok (some s, fs2, logs) => (s, fs2, logs)
  | Except.ok (none, fs2, logs) => (SUCCESS, fs2, logs)

/-! ## Per-unit success predicates (the failure-aggregation reading of the spec) -/

/-- One `rm` target succeeds on the current state: its match set is non-empty
and no match is on the `unlink` failure oracle. -/
def rm_unit_ok (fs : FileSystem) (loc t : String) : Bool :=
  let ms := fnmatchFilter (find_files fs loc t) "*.whl"
  !ms.isEmpty && ms.all (fun m => !(decide (m ∈ fs.failUnlink)))

/-- The filesystem after `rm` processes one target on the current state. -/
def rm_step_fs (fs : FileSystem) (loc t : String) : FileSystem :=
  let ms := fnmatchFilter (find_files fs loc t) "*.whl"
  if ms = [] then fs else (unlink_loop fs ms SUCCESS).1

/-- Every `rm` target succeeds, each judged on the state left by the
previous targets. -/
def rm_all_ok (loc : String) : FileSystem → List String → Bool
  | _, [] => true
  | fs, t :: rest => rm_unit_ok fs loc t && rm_all_ok loc (rm_step_fs fs loc t) rest

/-- One `purge` location is not a failure: a skipped location (symlink or
non-directory) always counts as success; an eligible directory fails exactly
when `rmtree` raises on it. -/
def purge_unit_ok (fs : FileSystem) (loc : String) : Bool :=
  if loc ∈ fs.links ∨ loc ∉ fs.dirs then true
  else decide (loc ∉ fs.failRmtree)

/-- Every `purge` location is skipped or removed without an error, each
judged on the state left by the previous locations. -/
def purge_all_ok (cache_dir : String) : FileSystem → List String → Bool
  | _, [] => true
  | fs, cache_type :: rest =>
    let loc := get_cache_location cache_dir cache_type
    purge_unit_ok fs loc && purge_all_ok cache_dir (purge_step fs loc).2.1 rest

/-! ## Concrete fixtures -/

/-- A populated cache root `/r`: two wheels and a stray text file in the
wheel cache, one file in the http cache. -/
def fsA : FileSystem :=
  { files := ["/r/wheels/foo-1.0-py3-none-any.whl", "/r/wheels/bar-2.0-py3-none-any.whl",
              "/r/wheels/notes.txt", "/r/http/aa/bb"]
    dirs := ["/r", "/r/wheels", "/r/http", "/r/http/aa"]
    links := []
    fileSize := fun _ => 7
    failUnlink := []
    failRmtree := [] }

/-- An entirely absent cache root: no files, no directories. -/
def fsB : FileSystem :=
  { files := [], dirs := [], links := [], fileSize := fun _ => 0,
    failUnlink := [], failRmtree := [] }

/-- Options selecting the wheel cache under root `/r`. -/
def optsWheel : Options := { type := "wheel", cache_dir := "/r" }

/-- Options selecting every cache under root `/r`. -/
def optsAll : Options := { type := "all", cache_dir := "/r" }

/-- Options selecting the http cache under root `/r`. -/
def optsHttp : Options := { type := "http", cache_dir := "/r" }

/-! ## Glob lemmas -/

theorem matchToks_lits (lits : List Char) (s : List Char) :
    matchToks (lits.map GlobTok.lit) s = true ↔ s = lits := by
  induction lits generalizing s with
  | nil =>
    cases s <;> simp [matchToks]
  | cons a as ih =>
    cases s with
    | nil => simp [matchToks]
    | cons c cs =>
      simp only [List.map_cons, matchToks, Bool.and_eq_true, decide_eq_true_eq, ih,
        List.cons.injEq]
      tauto

theorem matchToks_star (ps : List GlobTok) (s : List Char) :
    matchToks (GlobTok.star :: ps) s = true ↔ ∃ t, t <:+ s ∧ matchToks ps t = true := by
  simp [matchToks, List.any_eq_true, List.mem_tails]

theorem parseGlob_star_whl :
    parseGlob (("*.whl").data) =
      GlobTok.star :: (['.', 'w', 'h', 'l'].map GlobTok.lit) := by decide

/-- A name matches the glob `*.whl` exactly when it ends in `.whl`. -/
theorem fnmatchOne_whl (f : String) :
    fnmatchOne f "*.whl" = true ↔ (".whl").data <:+ f.data := by
  have hd : (".whl").data = ['.', 'w', 'h', 'l'] := by decide
  rw [fnmatchOne, parseGlob_star_whl, matchToks_star, hd]
  constructor
  · rintro ⟨t, hsuf, hm⟩
    rw [matchToks_lits] at hm
    exact hm ▸ hsuf
  · intro hsuf
    exact ⟨['.', 'w', 'h', 'l'], hsuf, (matchToks_lits _ _).mpr rfl⟩

theorem fnmatchOne_whl_eq_isSuffixOf (f : String) :
    fnmatchOne f "*.whl" = (".whl").data.isSuffixOf f.data := by
  rcases h : fnmatchOne f "*.whl" with _ | _
  · rcases hs : (".whl").data.isSuffixOf f.data with _ | _
    · rfl
    · rw [List.isSuffixOf_iff_suffix] at hs
      rw [(fnmatchOne_whl f).mpr hs] at h
      exact h.symm
  · rw [eq_comm, List.isSuffixOf_iff_suffix]
    exact (fnmatchOne_whl f).mp h

/-! ## Membership lemmas for the traversal primitives -/

theorem mem_find_files {fs : FileSystem} {path pat f : String} :
    f ∈ find_files fs path pat ↔
      f ∈ fs.files ∧ isUnder path f = true ∧ fnmatchOne (basename f) pat = true := by
  simp [find_files, List.mem_filter, Bool.and_eq_true, and_assoc]

theorem mem_fnmatchFilter {l : List String} {pat f : String} :
    f ∈ fnmatchFilter l pat ↔ f ∈ l ∧ fnmatchOne f pat = true := by
  simp [fnmatchFilter, List.mem_filter]

/-! ## `unlink_loop` lemmas -/

theorem unlink_loop_fields (fs : FileSystem) (ms : List String) (v : Nat) :
    (unlink_loop fs ms v).1.dirs = fs.dirs ∧
    (unlink_loop fs ms v).1.links = fs.links ∧
    (unlink_loop fs ms v).1.failUnlink = fs.failUnlink ∧
    (unlink_loop fs ms v).1.failRmtree = fs.failRmtree ∧
    (unlink_loop fs ms v).1.fileSize = fs.fileSize := by
  induction ms generalizing fs v with
  | nil => simp [unlink_loop]
  | cons m rest ih =>
    by_cases h : m ∈ fs.failUnlink
    · simpa [unlink_loop, h] using ih fs ERROR
    · simpa [unlink_loop, h, FileSystem.unlink] using ih (fs.unlink m) v

theorem unlink_loop_status (fs : FileSystem) (ms : List String) (v : Nat) :
    (unlink_loop fs ms v).2.2 =
      if ms.all (fun m => !(decide (m ∈ fs.failUnlink))) then v else ERROR := by
  induction ms generalizing fs v with
  | nil => simp [unlink_loop]
  | cons m rest ih =>
    by_cases h : m ∈ fs.failUnlink
    · simp [unlink_loop, h, ih fs ERROR]
    · have hk : (fs.unlink m).failUnlink = fs.failUnlink := rfl
      simp [unlink_loop, h, ih (fs.unlink m) v, hk]

theorem unlink_loop_indep (fs : FileSystem) (ms : List String) (v v' : Nat) :
    (unlink_loop fs ms v).1 = (unlink_loop fs ms v').1 ∧
    (unlink_loop fs ms v).2.1 = (unlink_loop fs ms v').2.1 := by
  induction ms generalizing fs v v' with
  | nil => exact ⟨rfl, rfl⟩
  | cons m rest ih =>
    by_cases h : m ∈ fs.failUnlink
    · simp [unlink_loop, h]
    · have := ih (fs.unlink m) v v'
      simp [unlink_loop, h, this.1, this.2]

theorem unlink_loop_logs_length (fs : FileSystem) (ms : List String) (v : Nat) :
    (unlink_loop fs ms v).2.1.length = ms.length := by
  induction ms generalizing fs v with
  | nil => simp [unlink_loop]
  | cons m rest ih =>
    by_cases h : m ∈ fs.failUnlink
    · simp [unlink_loop, h, ih fs ERROR]
    · simp [unlink_loop, h, ih (fs.unlink m) v]

theorem unlink_loop_files_subset (fs : FileSystem) (ms : List String) (v : Nat) :
    ∀ f, f ∈ (unlink_loop fs ms v).1.files → f ∈ fs.files := by
  induction ms generalizing fs v with
  | nil => intro f hf; simpa [unlink_loop] using hf
  | cons m rest ih =>
    intro f hf
    by_cases h : m ∈ fs.failUnlink
    · exact ih fs ERROR f (by simpa [unlink_loop, h] using hf)
    · have h1 : f ∈ (fs.unlink m).files :=
        ih (fs.unlink m) v f (by simpa [unlink_loop, h] using hf)
      exact (List.mem_filter.mp h1).1

theorem unlink_loop_files_kept (fs : FileSystem) (ms : List String) (v : Nat) :
    ∀ f, f ∈ fs.files → f ∉ ms → f ∈ (unlink_loop fs ms v).1.files := by
  induction ms generalizing fs v with
  | nil => intro f hf _; simpa [unlink_loop] using hf
  | cons m rest ih =>
    intro f hf hnm
    have hne : ¬(f = m) := fun hc => hnm (hc ▸ List.mem_cons_self m rest)
    have hnr : f ∉ rest := fun hc => hnm (List.mem_cons_of_mem m hc)
    by_cases h : m ∈ fs.failUnlink
    · simpa [unlink_loop, h] using ih fs ERROR f hf hnr
    · have hf2 : f ∈ (fs.unlink m).files :=
        List.mem_filter.mpr ⟨hf, by simp [hne]⟩
      simpa [unlink_loop, h] using ih (fs.unlink m) v f hf2 hnr

/-! ## `rm_loop` lemmas -/

theorem rm_loop_fields (loc : String) (fs : FileSystem) (ts : List String) (v : Nat) :
    (rm_loop loc fs ts v).2.1.dirs = fs.dirs ∧
    (rm_loop loc fs ts v).2.1.links = fs.links ∧
    (rm_loop loc fs ts v).2.1.failUnlink = fs.failUnlink ∧
    (rm_loop loc fs ts v).2.1.failRmtree = fs.failRmtree ∧
    (rm_loop loc fs ts v).2.1.fileSize = fs.fileSize := by
  induction ts generalizing fs v with
  | nil => simp [rm_loop]
  | cons t rest ih =>
    by_cases hms : fnmatchFilter (find_files fs loc t) "*.whl" = []
    · simpa [rm_loop, hms] using ih fs ERROR
    · have hu := unlink_loop_fields fs (fnmatchFilter (find_files fs loc t) "*.whl") v
      have hr := ih (unlink_loop fs (fnmatchFilter (find_files fs loc t) "*.whl") v).1
        (unlink_loop fs (fnmatchFilter (find_files fs loc t) "*.whl") v).2.2
      simp only [rm_loop, hms, if_false]
      exact ⟨hr.1.trans hu.1, hr.2.1.trans hu.2.1, hr.2.2.1.trans hu.2.2.1,
        hr.2.2.2.1.trans hu.2.2.2.1, hr.2.2.2.2.trans hu.2.2.2.2⟩

theorem rm_loop_status (loc : String) (fs : FileSystem) (ts : List String) (v : Nat) :
    (rm_loop loc fs ts v).1 = if rm_all_ok loc fs ts then v else ERROR := by
  induction ts generalizing fs v with
  | nil => simp [rm_loop, rm_all_ok]
  | cons t rest ih =>
    by_cases hms : fnmatchFilter (find_files fs loc t) "*.whl" = []
    · have hempty : (fnmatchFilter (find_files fs loc t) "*.whl").isEmpty = true := by
        simp [hms]
      simp [rm_loop, hms, ih fs ERROR, rm_all_ok, rm_unit_ok, hempty]
    · have hstep1 :
          (unlink_loop fs (fnmatchFilter (find_files fs loc t) "*.whl") v).1 =
            rm_step_fs fs loc t := by
        rw [rm_step_fs]
        simp only [hms, if_false]
        exact (unlink_loop_indep fs _ v SUCCESS).1
      have hempty : (fnmatchFilter (find_files fs loc t) "*.whl").isEmpty = false := by
        simp [List.isEmpty_iff, hms]
      simp only [rm_loop, hms, if_false, ih, hstep1, unlink_loop_status,
        rm_all_ok, rm_unit_ok, hempty, Bool.not_false, Bool.true_and]
      rcases h1 : rm_all_ok loc (rm_step_fs fs loc t) rest with _ | _ <;>
        rcases h2 : (fnmatchFilter (find_files fs loc t) "*.whl").all
          (fun m => !(decide (m ∈ fs.failUnlink))) with _ | _ <;> simp

theorem rm_loop_logs_length (loc : String) (fs : FileSystem) (ts : List String) (v : Nat) :
    ts.length ≤ (rm_loop loc fs ts v).2.2.length := by
  induction ts generalizing fs v with
  | nil => simp [rm_loop]
  | cons t rest ih =>
    by_cases hms : fnmatchFilter (find_files fs loc t) "*.whl" = []
    · have := ih fs ERROR
      simp only [rm_loop, hms, if_true, List.length_cons]
      simpa using Nat.succ_le_succ this
    · have hlen : 1 ≤ (fnmatchFilter (find_files fs loc t) "*.whl").length := by
        have := List.length_pos.mpr hms
        omega
      have hul := unlink_loop_logs_length fs (fnmatchFilter (find_files fs loc t) "*.whl") v
      have hrest := ih (unlink_loop fs (fnmatchFilter (find_files fs loc t) "*.whl") v).1
        (unlink_loop fs (fnmatchFilter (find_files fs loc t) "*.whl") v).2.2
      simp only [rm_loop, hms, if_false, List.length_append, List.length_cons, hul]
      omega

theorem rm_loop_files_subset (loc : String) (fs : FileSystem) (ts : List String) (v : Nat) :
    ∀ f, f ∈ (rm_loop loc fs ts v).2.1.files → f ∈ fs.files := by
  induction ts generalizing fs v with
  | nil => intro f hf; simpa [rm_loop] using hf
  | cons t rest ih =>
    intro f hf
    by_cases hms : fnmatchFilter (find_files fs loc t) "*.whl" = []
    · exact ih fs ERROR f (by simpa [rm_loop, hms] using hf)
    · have h1 :
          f ∈ (unlink_loop fs (fnmatchFilter (find_files fs loc t) "*.whl") v).1.files :=
        ih _ _ f (by simpa [rm_loop, hms] using hf)
      exact unlink_loop_files_subset fs _ v f h1

theorem rm_loop_removed (loc : String) (fs : FileSystem) (ts : List String) (v : Nat) :
    ∀ f, f ∈ fs.files → f ∉ (rm_loop loc fs ts v).2.1.files →
      isUnder loc f = true ∧ fnmatchOne f "*.whl" = true ∧
        ∃ t ∈ ts, fnmatchOne (basename f) t = true := by
  induction ts generalizing fs v with
  | nil => intro f hf hnf; exact absurd (by simpa [rm_loop] using hf) hnf
  | cons t rest ih =>
    intro f hf hnf
    by_cases hms : fnmatchFilter (find_files fs loc t) "*.whl" = []
    · have hnf2 : f ∉ (rm_loop loc fs rest ERROR).2.1.files := by
        intro hc; exact hnf (by simpa [rm_loop, hms] using hc)
      obtain ⟨h1, h2, t', ht', h3⟩ := ih fs ERROR f hf hnf2
      exact ⟨h1, h2, t', List.mem_cons_of_mem t ht', h3⟩
    · set ms := fnmatchFilter (find_files fs loc t) "*.whl" with hms_def
      by_cases hstep : f ∈ (unlink_loop fs ms v).1.files
      · have hnf2 : f ∉ (rm_loop loc (unlink_loop fs ms v).1 rest
            (unlink_loop fs ms v).2.2).2.1.files := by
          intro hc; exact hnf (by simpa [rm_loop, hms_def, hms] using hc)
        obtain ⟨h1, h2, t', ht', h3⟩ := ih _ _ f hstep hnf2
        exact ⟨h1, h2, t', List.mem_cons_of_mem t ht', h3⟩
      · have hfm : f ∈ ms := by
          by_contra hnm
          exact hstep (unlink_loop_files_kept fs ms v f hf hnm)
        obtain ⟨hff, hwhl⟩ := mem_fnmatchFilter.mp hfm
        obtain ⟨_, hund, hpat⟩ := mem_find_files.mp hff
        exact ⟨hund, hwhl, t, List.mem_cons_self t rest, hpat⟩

/-! ## `purge` lemmas -/

theorem purge_step_status (fs : FileSystem) (loc : String) :
    (purge_step fs loc).1 = if purge_unit_ok fs loc then SUCCESS else ERROR := by
  by_cases h : loc ∈ fs.links ∨ loc ∉ fs.dirs
  · simp [purge_step, purge_unit_ok, h]
  · by_cases h2 : loc ∈ fs.failRmtree <;> simp [purge_step, purge_unit_ok, h, h2]

theorem purge_loop_status (dir : String) (fs : FileSystem) (cts : List String) (v : Nat) :
    (purge_loop dir fs cts v).1 = if purge_all_ok dir fs cts then v else ERROR := by
  induction cts generalizing fs v with
  | nil => simp [purge_loop, purge_all_ok]
  | cons ct rest ih =>
    simp only [purge_loop, purge_all_ok, ih, purge_step_status]
    by_cases hu : purge_unit_ok fs (get_cache_location dir ct) = true <;>
      by_cases ha : purge_all_ok dir
        (purge_step fs (get_cache_location dir ct)).2.1 rest = true <;>
      simp [hu, ha, SUCCESS, ERROR]

/-! ## Claim theorems -/

/-- C6: for every cache root `r`, `get_cache_location` maps `wheel` to
`r` joined with `wheels`, `http` to `r` joined with `http`, and `all` to
`r` itself; it is a pure, total function of the path alone (it takes no
filesystem state), so resolution is deterministic and independent of
whether the path exists. -/
theorem c6_get_cache_location (r : String) :
    get_cache_location r "wheel" = r ++ "/wheels" ∧
    get_cache_location r "http" = r ++ "/http" ∧
    get_cache_location r "all" = r := by
  refine ⟨?_, ?_, by simp [get_cache_location]⟩ <;>
  · apply String.ext
    simp [get_cache_location, os_path_join, suffixTable, String.data_append,
      List.append_assoc]
    all_goals decide

/-- C9: `info` always returns the success status and leaves the filesystem
unchanged, for every cache type and every filesystem state; a location with
no files beneath it (in particular a missing directory) just reports zero
files and zero bytes. -/
theorem c9_info_always_success (options : Options) (a : List String) (fs : FileSystem) :
    (action_info options a fs).1 = some SUCCESS ∧
    (action_info options a fs).2.1 = fs ∧
    cache_main options ("info" :: a) fs = (SUCCESS, fs, (action_info options a fs).2.2) ∧
    (∀ p : String, (∀ f ∈ fs.files, isUnder p f = false) →
      tree_statistics fs p = (0, 0)) := by
  refine ⟨rfl, rfl, rfl, ?_⟩
  intro p hp
  have hnil : fs.files.filter (fun f => isUnder p f) = [] := by
    rw [List.filter_eq_nil_iff]
    intro f hf
    simp [hp f hf]
  simp [tree_statistics, hnil]

/-- C9 witness: on the concrete state `fsA`, a location with nothing under
it reports `(0, 0)`. -/
theorem c9_witness : tree_statistics fsA "/absent" = (0, 0) :=
  (c9_info_always_success optsWheel [] fsA).2.2.2 "/absent" (by decide)

/-- C10: for the actions `info`, `list` and `purge`, the positional
arguments after the action name are ignored: the whole outcome of `run`
(and of the surrounding CLI layer) is identical for any two trailing
argument lists. -/
theorem c10_trailing_args_ignored (options : Options) (fs : FileSystem) (a : String)
    (r1 r2 : List String) (ha : a = "info" ∨ a = "list" ∨ a = "purge") :
    run options (a :: r1) fs = run options (a :: r2) fs ∧
    cache_main options (a :: r1) fs = cache_main options (a :: r2) fs := by
  have hrun : run options (a :: r1) fs = run options (a :: r2) fs := by
    rcases ha with rfl | rfl | rfl <;> rfl
  exact ⟨hrun, by simp [cache_main, hrun]⟩

/-- C10 witness: `info` with no trailing arguments and with a stray one
behave identically on `fsA`. -/
theorem c10_witness : run optsWheel ("info" :: []) fsA = run optsWheel ("info" :: ["x"]) fsA :=
  (c10_trailing_args_ignored optsWheel fsA "info" [] ["x"] (Or.inl rfl)).1

/-- C5: `list` or `rm` with a cache type other than `wheel`, and `rm` with
an empty target list, raise a `CommandError` whose outcome is identical on
every filesystem state (so nothing was read or written), leave the state
unchanged with no output, and terminate with the non-zero failure status. -/
theorem c5_usage_errors (options : Options) (rest : List String) (fs fs2 : FileSystem) :
    (options.type ≠ "wheel" →
      (∃ e, run options ("list" :: rest) fs = Except.error e) ∧
      run options ("list" :: rest) fs = run options ("list" :: rest) fs2 ∧
      cache_main options ("list" :: rest) fs = (ERROR, fs, []) ∧
      (∃ e, run options ("rm" :: rest) fs = Except.error e) ∧
      run options ("rm" :: rest) fs = run options ("rm" :: rest) fs2 ∧
      cache_main options ("rm" :: rest) fs = (ERROR, fs, [])) ∧
    ((∃ e, run options ["rm"] fs = Except.error e) ∧
      run options ["rm"] fs = run options ["rm"] fs2 ∧
      cache_main options ["rm"] fs = (ERROR, fs, [])) ∧
    ERROR ≠ SUCCESS := by
  refine ⟨?_, ?_, by simp [ERROR, SUCCESS]⟩
  · intro hty
    have hlist : ∀ g : FileSystem, run options ("list" :: rest) g =
        Except.error ⟨"pip cache list only operates on the wheel cache."⟩ := by
      intro g; simp [run, actions, action_list, hty]
    have hrm : ∀ g : FileSystem, run options ("rm" :: rest) g =
        Except.error ⟨"pip cache rm only operates on the wheel cache."⟩ := by
      intro g; simp [run, actions, action_rm, hty]
    refine ⟨⟨_, hlist fs⟩, (hlist fs).trans (hlist fs2).symm,
      by simp [cache_main, hlist fs], ⟨_, hrm fs⟩,
      (hrm fs).trans (hrm fs2).symm, by simp [cache_main, hrm fs]⟩
  · by_cases hty : options.type = "wheel"
    · have hrm : ∀ g : FileSystem, run options ["rm"] g =
          Except.error ⟨"Must specify the filename of (a) wheel(s) to remove."⟩ := by
        intro g; simp [run, actions, action_rm, hty]
      exact ⟨⟨_, hrm fs⟩, (hrm fs).trans (hrm fs2).symm, by simp [cache_main, hrm fs]⟩
    · have hrm : ∀ g : FileSystem, run options ["rm"] g =
          Except.error ⟨"pip cache rm only operates on the wheel cache."⟩ := by
        intro g; simp [run, actions, action_rm, hty]
      exact ⟨⟨_, hrm fs⟩, (hrm fs).trans (hrm fs2).symm, by simp [cache_main, hrm fs]⟩

/-- C5 witness: `list` with the http cache type errors out with the state
untouched, no output and the failure status. -/
theorem c5_witness : cache_main optsHttp ["list"] fsA = (ERROR, fsA, []) :=
  ((c5_usage_errors optsHttp [] fsA fsA).1 (by decide)).2.2.1

/-- C1: an `rm` target whose raw-glob matches contain no file ending in
`.whl` (the semantic reading of the `*.whl` re-filter, proved equivalent
below) produces an empty match set, a per-target warning and the failure
status without raising, leaving the filesystem unchanged; and in general the
match set for any list of candidates is the raw-glob result filtered down to
the names ending in `.whl`. -/
theorem c1_rm_non_whl_pattern (options : Options) (fs : FileSystem) (t : String)
    (hw : options.type = "wheel")
    (h : ∀ f ∈ find_files fs (get_cache_location options.cache_dir "wheel") t,
        ¬((".whl").data <:+ f.data)) :
    fnmatchFilter (find_files fs (get_cache_location options.cache_dir "wheel") t)
        "*.whl" = [] ∧
    action_rm options [t] fs =
      Except.ok (some ERROR, fs, [LogMsg.warning ("No match found for " ++ t)]) ∧
    (∀ l : List String,
      fnmatchFilter l "*.whl" = l.filter (fun f => (".whl").data.isSuffixOf f.data)) := by
  have hchar : ∀ l : List String,
      fnmatchFilter l "*.whl" = l.filter (fun f => (".whl").data.isSuffixOf f.data) := by
    intro l
    rw [fnmatchFilter]
    exact List.filter_congr (fun f _ => fnmatchOne_whl_eq_isSuffixOf f)
  have hempty : fnmatchFilter
      (find_files fs (get_cache_location options.cache_dir "wheel") t) "*.whl" = [] := by
    rw [fnmatchFilter, List.filter_eq_nil_iff]
    intro f hf
    have hnot := h f hf
    rw [← fnmatchOne_whl] at hnot
    simpa using hnot
  refine ⟨hempty, ?_, hchar⟩
  simp only [action_rm, hw]
  simp [rm_loop, hempty]

/-- C1 witness: removing by the pattern `*.txt` on the populated cache
matches the stray text file by the raw glob but nothing after the `*.whl`
re-filter, so it warns and fails without raising. -/
theorem c1_witness :
    fnmatchFilter (find_files fsA (get_cache_location optsWheel.cache_dir "wheel") "*.txt")
        "*.whl" = [] ∧
    action_rm optsWheel ["*.txt"] fsA =
      Except.ok (some ERROR, fsA, [LogMsg.warning ("No match found for " ++ "*.txt")]) ∧
    (∀ l : List String,
      fnmatchFilter l "*.whl" = l.filter (fun f => (".whl").data.isSuffixOf f.data)) :=
  c1_rm_non_whl_pattern optsWheel fsA "*.txt" rfl (by decide)

/-- C2: an `rm` invocation with at least one target never raises past the
argument checks; its result is binary, it is the success status exactly when
every target (judged on the state the previous targets left) had a non-empty
match set and none of its matches hit the `unlink` failure oracle, and every
target contributes at least one log line, so processing never aborts
early. -/
theorem c2_rm_success_iff (options : Options) (targets : List String) (fs : FileSystem)
    (hw : options.type = "wheel") (ht : targets ≠ []) :
    action_rm options targets fs =
      Except.ok
        (some (rm_loop (get_cache_location options.cache_dir "wheel") fs targets SUCCESS).1,
         (rm_loop (get_cache_location options.cache_dir "wheel") fs targets SUCCESS).2.1,
         (rm_loop (get_cache_location options.cache_dir "wheel") fs targets SUCCESS).2.2) ∧
    ((rm_loop (get_cache_location options.cache_dir "wheel") fs targets SUCCESS).1 = SUCCESS
      ↔ rm_all_ok (get_cache_location options.cache_dir "wheel") fs targets = true) ∧
    ((rm_loop (get_cache_location options.cache_dir "wheel") fs targets SUCCESS).1 = SUCCESS
      ∨ (rm_loop (get_cache_location options.cache_dir "wheel") fs targets SUCCESS).1
          = ERROR) ∧
    targets.length ≤
      (rm_loop (get_cache_location options.cache_dir "wheel") fs targets SUCCESS).2.2.length
    := by
  have hlen : targets.length ≠ 0 := fun hc => ht (List.length_eq_zero.mp hc)
  refine ⟨?_, ?_, ?_, rm_loop_logs_length _ _ _ _⟩
  · simp [action_rm, hw, hlen]
  · rw [rm_loop_status]
    by_cases hok : rm_all_ok (get_cache_location options.cache_dir "wheel") fs targets = true
    · simp [hok]
    · simp [hok, SUCCESS, ERROR]
  · rw [rm_loop_status]
    by_cases hok : rm_all_ok (get_cache_location options.cache_dir "wheel") fs targets = true
    · simp [hok]
    · simp [hok]

/-- C2 witness: on the populated cache, removing by `foo*` reports success
exactly when the per-unit outcomes all succeed. -/
theorem c2_witness :
    (rm_loop (get_cache_location optsWheel.cache_dir "wheel") fsA ["foo*"] SUCCESS).1
        = SUCCESS ↔
      rm_all_ok (get_cache_location optsWheel.cache_dir "wheel") fsA ["foo*"] = true :=
  (c2_rm_success_iff optsWheel ["foo*"] fsA rfl (by decide)).2.1

/-- C8: `rm` never touches directories or symlinks, never adds files, and
every file it removes lies under the wheel cache location, ends in `.whl`
(matches the `*.whl` re-filter) and has a basename matching one of the
target patterns; everything else is left unchanged. -/
theorem c8_rm_frame (options : Options) (targets : List String) (fs : FileSystem)
    (hw : options.type = "wheel") (ht : targets ≠ []) :
    action_rm options targets fs =
      Except.ok
        (some (rm_loop (get_cache_location options.cache_dir "wheel") fs targets SUCCESS).1,
         (rm_loop (get_cache_location options.cache_dir "wheel") fs targets SUCCESS).2.1,
         (rm_loop (get_cache_location options.cache_dir "wheel") fs targets SUCCESS).2.2) ∧
    (rm_loop (get_cache_location options.cache_dir "wheel") fs targets SUCCESS).2.1.dirs
      = fs.dirs ∧
    (rm_loop (get_cache_location options.cache_dir "wheel") fs targets SUCCESS).2.1.links
      = fs.links ∧
    (∀ f, f ∈ (rm_loop (get_cache_location options.cache_dir "wheel") fs targets
        SUCCESS).2.1.files → f ∈ fs.files) ∧
    (∀ f, f ∈ fs.files →
      f ∉ (rm_loop (get_cache_location options.cache_dir "wheel") fs targets
        SUCCESS).2.1.files →
      isUnder (get_cache_location options.cache_dir "wheel") f = true ∧
      fnmatchOne f "*.whl" = true ∧
      ∃ t ∈ targets, fnmatchOne (basename f) t = true) := by
  have hlen : targets.length ≠ 0 := fun hc => ht (List.length_eq_zero.mp hc)
  exact ⟨by simp [action_rm, hw, hlen],
    (rm_loop_fields _ _ _ _).1, (rm_loop_fields _ _ _ _).2.1,
    rm_loop_files_subset _ _ _ _, rm_loop_removed _ _ _ _⟩

/-- C8 witness: removing by `foo*` on the populated cache goes through the
removal loop without raising. -/
theorem c8_witness :
    action_rm optsWheel ["foo*"] fsA =
      Except.ok
        (some (rm_loop (get_cache_location optsWheel.cache_dir "wheel") fsA ["foo*"]
          SUCCESS).1,
         (rm_loop (get_cache_location optsWheel.cache_dir "wheel") fsA ["foo*"]
          SUCCESS).2.1,
         (rm_loop (get_cache_location optsWheel.cache_dir "wheel") fsA ["foo*"]
          SUCCESS).2.2) :=
  (c8_rm_frame optsWheel ["foo*"] fsA rfl (by decide)).1

/-- C3: `purge` returns success exactly when every resolved location was
either skipped (a symlink or not an existing directory — never counted as a
failure) or removed without `rmtree` raising; in particular, with a single
cache type whose location is a symlink or not an existing directory, the
whole action is an informational skip that leaves the state unchanged and
returns success. -/
theorem c3_purge_skip_not_failure (options : Options) (a : List String) (fs : FileSystem) :
    ((action_purge options a fs).1 = SUCCESS ↔
      purge_all_ok options.cache_dir fs
        (if options.type = "all" then ["http", "wheel"] else [options.type]) = true) ∧
    (options.type ≠ "all" →
      (get_cache_location options.cache_dir options.type ∈ fs.links ∨
        get_cache_location options.cache_dir options.type ∉ fs.dirs) →
      action_purge options a fs =
        (SUCCESS, fs,
          [LogMsg.info (get_cache_location options.cache_dir options.type ++
            " is not a directory; skipping")])) := by
  constructor
  · rw [action_purge, purge_loop_status]
    by_cases hok : purge_all_ok options.cache_dir fs
        (if options.type = "all" then ["http", "wheel"] else [options.type]) = true
    · simp [hok]
    · simp [hok, SUCCESS, ERROR]
  · intro hty hskip
    simp [action_purge, hty, purge_loop, purge_step, hskip, SUCCESS, ERROR]

/-- C3 witness: purging the wheel cache of an entirely absent cache root is
an informational skip with the success status. -/
theorem c3_witness :
    action_purge optsWheel [] fsB =
      (SUCCESS, fsB,
        [LogMsg.info (get_cache_location optsWheel.cache_dir optsWheel.type ++
          " is not a directory; skipping")]) :=
  (c3_purge_skip_not_failure optsWheel [] fsB).2 (by decide) (by decide)

/-- C7: with cache type `all`, `info` builds exactly the http block followed
by the wheel block, and `purge` attempts the http location strictly before
the wheels location (the second step runs on the state the first one left);
with a single cache type each action handles exactly that one type. -/
theorem c7_all_iterates_http_then_wheel (options : Options) (a : List String)
    (fs : FileSystem) :
    (options.type = "all" →
      action_info options a fs =
        (some SUCCESS, fs,
          [LogMsg.info (String.intercalate "\n\n"
            [render_block (info_block fs options.cache_dir "http"),
             render_block (info_block fs options.cache_dir "wheel")])]) ∧
      action_purge options a fs =
        ((if (purge_step (purge_step fs (get_cache_location options.cache_dir "http")).2.1
              (get_cache_location options.cache_dir "wheel")).1 = ERROR then ERROR
          else if (purge_step fs (get_cache_location options.cache_dir "http")).1 = ERROR
            then ERROR else SUCCESS),
         (purge_step (purge_step fs (get_cache_location options.cache_dir "http")).2.1
            (get_cache_location options.cache_dir "wheel")).2.1,
         (purge_step fs (get_cache_location options.cache_dir "http")).2.2 ++
           (purge_step (purge_step fs (get_cache_location options.cache_dir "http")).2.1
              (get_cache_location options.cache_dir "wheel")).2.2)) ∧
    (options.type ≠ "all" →
      action_info options a fs =
        (some SUCCESS, fs,
          [LogMsg.info (String.intercalate "\n\n"
            [render_block (info_block fs options.cache_dir options.type)])]) ∧
      action_purge options a fs =
        purge_step fs (get_cache_location options.cache_dir options.type)) := by
  constructor
  · intro hty
    constructor
    · simp [action_info, hty, info_blocks]
    · simp only [action_purge, hty, if_true, purge_loop]
      by_cases h1 : (purge_step fs (get_cache_location options.cache_dir "http")).1 = ERROR
        <;> by_cases h2 : (purge_step
            (purge_step fs (get_cache_location options.cache_dir "http")).2.1
            (get_cache_location options.cache_dir "wheel")).1 = ERROR
        <;> simp [h1, h2]
  · intro hty
    constructor
    · simp [action_info, hty, info_blocks]
    · have hcases : (purge_step fs (get_cache_location options.cache_dir options.type)).1
          = SUCCESS ∨
        (purge_step fs (get_cache_location options.cache_dir options.type)).1 = ERROR := by
        rw [purge_step_status]
        by_cases h : purge_unit_ok fs
            (get_cache_location options.cache_dir options.type) = true <;> simp [h]
      rcases hcases with h | h <;>
        simp [action_purge, hty, purge_loop, h, SUCCESS, ERROR, Prod.ext_iff, ← h]

/-- C7 witness: on the populated cache with type `all`, `info` emits the
http block then the wheel block. -/
theorem c7_witness :
    action_info optsAll [] fsA =
      (some SUCCESS, fsA,
        [LogMsg.info (String.intercalate "\n\n"
          [render_block (info_block fsA optsAll.cache_dir "http"),
           render_block (info_block fsA optsAll.cache_dir "wheel")])]) :=
  ((c7_all_iterates_http_then_wheel optsAll [] fsA).1 rfl).1

/-- C4: `list` on the wheel cache emits exactly the basenames of the `*.whl`
files under the wheel cache location (a permutation of them), sorted, one per
line, leaves the state unchanged and ends with the success status; an empty
or absent wheel cache yields an empty listing and still success. -/
theorem c4_list_sorted_wheels (options : Options) (a : List String) (fs : FileSystem)
    (hw : options.type = "wheel") :
    action_list options a fs =
      Except.ok (none, fs,
        [LogMsg.info (String.intercalate "\n" (list_wheels fs options.cache_dir))]) ∧
    (list_wheels fs options.cache_dir).Perm
      ((find_files fs (get_cache_location options.cache_dir "wheel") "*.whl").map
        basename) ∧
    List.Sorted (fun x y : String => x ≤ y) (list_wheels fs options.cache_dir) ∧
    (find_files fs (get_cache_location options.cache_dir "wheel") "*.whl" = [] →
      list_wheels fs options.cache_dir = []) ∧
    cache_main options ("list" :: a) fs =
      (SUCCESS, fs,
        [LogMsg.info (String.intercalate "\n" (list_wheels fs options.cache_dir))]) := by
  have hperm : (list_wheels fs options.cache_dir).Perm
      ((find_files fs (get_cache_location options.cache_dir "wheel") "*.whl").map
        basename) := by
    rw [list_wheels]
    exact List.mergeSort_perm _ _
  refine ⟨by simp [action_list, hw], hperm, ?_, ?_, ?_⟩
  · have hs := @List.sorted_mergeSort String
      (fun x y : String => decide (x ≤ y))
      (fun x y z hxy hyz => by
        simp only [decide_eq_true_eq] at *
        exact le_trans hxy hyz)
      (fun x y => by
        simp only [Bool.or_eq_true, decide_eq_true_eq]
        exact le_total x y)
      ((find_files fs (get_cache_location options.cache_dir "wheel") "*.whl").map
        basename)
    rw [list_wheels]
    exact hs.imp (fun h => of_decide_eq_true h)
  · intro hnil
    have : (list_wheels fs options.cache_dir).Perm ([] : List String) := by
      simpa [hnil] using hperm
    exact this.eq_nil
  · simp [cache_main, run, actions, action_list, hw]

/-- C4 witness: listing the populated wheel cache succeeds with the sorted
basenames as its single output line. -/
theorem c4_witness :
    (list_wheels fsA optsWheel.cache_dir).Perm
      ((find_files fsA (get_cache_location optsWheel.cache_dir "wheel") "*.whl").map
        basename) :=
  (c4_list_sorted_wheels optsWheel [] fsA rfl).2.1

end PipCache
